import Mathlib

/-!
Shallow embedding of the batching Kafka producer
(`kafka/producer/base.py`, `kafka/producer/keyed.py`) and proofs about it.

Python values that the code inspects dynamically (payloads, topics, keys)
are modelled by an inductive `PyVal`; machine state that the code threads
through loops (the shared queue, pending-request maps, the wall clock) is
passed explicitly.  External collaborators (`kafka.common` error-type sets,
the client, `create_message_set`, the partitioner class) live outside the
two source files and are modelled abstractly at their interface, as noted
at each definition.
-/

namespace KafkaProducer

/-- A Python value, as far as the producer's `isinstance` checks can tell:
a byte string, a text string, an integer, `None`, or anything else. -/
inductive PyVal where
  | bytes (b : List Nat)
  | str (s : String)
  | int (n : Int)
  | pyNone
  | other
deriving DecidableEq, Repr

/-- `isinstance(v, six.binary_type)` — true exactly for byte strings. -/
def isBinaryType : PyVal → Bool
  | .bytes _ => true
  | _ => false

/-- `kafka.common.TopicAndPartition(topic, partition)` as used by the
producer: an immutable pair. -/
structure TopicAndPartition where
  topic : PyVal
  partition : Int
deriving DecidableEq, Repr

/-- A produce request, `ProduceRequest(topic, partition, messages)`.
`create_message_set(items, codec, key)` is an external collaborator
(kafka.protocol); its encoded message set is modelled by the (payload, key)
pairs handed to it together with the codec. -/
structure ProduceRequest where
  topic : PyVal
  partition : Int
  messages : List (PyVal × Option PyVal)
  codec : Nat
deriving DecidableEq, Repr

/-- An entry of the shared producer queue: either a normal
`(TopicAndPartition, msg, key)` triple, or the distinguished
`(STOP_ASYNC_PRODUCER, None, None)` stop sentinel. -/
inductive QueueEntry where
  | stopSentinel
  | msg (tp : TopicAndPartition) (payload : PyVal) (key : Option PyVal)
deriving DecidableEq, Repr

/-- The shared bounded queue (`Queue(maxsize)`); `maxsize = 0` means
unbounded, as in Python's `queue.Queue`. -/
structure PQueue where
  maxsize : Nat
  items : List QueueEntry
deriving DecidableEq, Repr

/-- `queue.put_nowait(item)`: fails (raises `Full`, here `none`) exactly
when `0 < maxsize ≤ qsize()`; otherwise appends the item. -/
def put_nowait (q : PQueue) (e : QueueEntry) : Option PQueue :=
  if 0 < q.maxsize ∧ q.maxsize ≤ q.items.length then none
  else some { q with items := q.items ++ [e] }

/-- `kafka.common.RetryOptions(limit, backoff_ms, retry_on_timeouts)`:
immutable retry configuration. -/
structure RetryOptions where
  limit : Nat
  backoff_ms : Nat
  retry_on_timeouts : Bool
deriving DecidableEq, Repr

/-! ## Producer.stop and the teardown hooks -/

/-- The slice of `Producer` state that `stop()` (base.py 292-323) reads and
writes: the send mode, the shared queue, whether the atexit cleanup handler
is still registered (`hasattr(self, '_cleanup_func')`), the dispatcher's
stop event, and the `stopped` flag. -/
structure StopProducerState where
  async : Bool
  queue : PQueue
  hasCleanupFunc : Bool
  threadStopEventSet : Bool
  stopped : Bool
deriving DecidableEq, Repr

/-- `Producer.stop(timeout)` (base.py 292-323).  In asynchronous mode it
puts the stop sentinel on the queue (a blocking `put`, modelled as an
append), joins the thread for `timeout`, and sets the thread stop event if
the thread is still alive afterwards (`threadAliveAfterJoin` abstracts
`self.thread.is_alive()`); then it unregisters and deletes the cleanup
handler if present, and finally sets `stopped = True`.  There is no guard
on `self.stopped`: the body runs in full on every call. -/
def stop (st : StopProducerState) (threadAliveAfterJoin : Bool) : StopProducerState :=
  let st1 :=
    if st.async then
      { st with
        queue := { st.queue with items := st.queue.items ++ [.stopSentinel] }
        threadStopEventSet := st.threadStopEventSet || threadAliveAfterJoin }
    else st
  let st2 := if st1.hasCleanupFunc then { st1 with hasCleanupFunc := false } else st1
  { st2 with stopped := true }

/-- The `cleanup` hook registered with `atexit` in `Producer.__init__`
(base.py 223-227): `if obj.stopped: obj.stop()`.  Returns whether the hook
invokes `stop()` for a producer whose `stopped` flag has the given value. -/
def cleanup_invokes_stop (stopped : Bool) : Bool :=
  if stopped then true else false

/-- `Producer.__del__` (base.py 325-327): `if not self.stopped: self.stop()`.
Returns whether finalization invokes `stop()`. -/
def del_invokes_stop (stopped : Bool) : Bool :=
  if !stopped then true else false

/-- An asynchronous producer on which `stop()` has already completed:
the stop sentinel of the first call was consumed by the dispatcher, the
cleanup handler was deleted, and `stopped` is true. -/
def stoppedAsyncProducer : StopProducerState :=
  { async := true
    queue := { maxsize := 0, items := [] }
    hasCleanupFunc := false
    threadStopEventSet := false
    stopped := true }

/-! ## Dispatcher error handling and retry bookkeeping -/

/-- An error class together with its membership in the classification sets
`RETRY_ERROR_TYPES`, `RETRY_BACKOFF_ERROR_TYPES`, `RETRY_REFRESH_ERROR_TYPES`
and whether it is `RequestTimedOutError`.  Those sets live in `kafka.common`,
outside the two producer source files, so membership is carried with the
class rather than recomputed. -/
structure ErrorCls where
  isRequestTimedOut : Bool
  inRetryTypes : Bool
  inBackoffTypes : Bool
  inRefreshTypes : Bool
deriving DecidableEq, Repr

/-- `_handle_error(error_cls, reqs, all_retries)`, the function nested in
`_send_upstream` (base.py 95-103), with Python's closure semantics made
explicit: `all_retries += reqs` mutates the shared list in place (so the
updated list is returned to the caller), whereas `do_backoff = True` and
`do_refresh = True` bind fresh variables *local* to the nested function —
there is no `nonlocal` declaration — so the enclosing cycle's flags are
untouched.  The two locals are returned here; the caller drops them. -/
def handle_error (retry_options : RetryOptions) (error_cls : ErrorCls)
    (reqs : List ProduceRequest) (all_retries : List ProduceRequest) :
    List ProduceRequest × Bool × Bool :=
  let all_retries :=
    if (error_cls.isRequestTimedOut && retry_options.retry_on_timeouts)
        || error_cls.inRetryTypes
    then all_retries ++ reqs else all_retries
  let do_backoff := error_cls.inBackoffTypes
  let do_refresh := error_cls.inRefreshTypes
  (all_retries, do_backoff, do_refresh)

/-- One element of the reply list of `client.send_produce_request(...)`:
either a successful `ProduceResponse`, a `FailedPayloadsError` carrying the
payloads that failed, or a `ProduceResponse` whose `error` field is nonzero,
carrying the class `kafka_errors.get(response.error, UnknownError)`. -/
inductive SendReply where
  | ok
  | failedPayloads (payloads : List ProduceRequest)
  | brokerError (error_cls : ErrorCls)
deriving Repr

/-- The outcome of one `client.send_produce_request` call in the dispatcher:
either a reply list (parallel to `reqs.keys()`), or an exception whose class
is looked up via `kafka_errors.get(type(ex), UnknownError)`. -/
inductive SendAttemptOutcome where
  | replies (rs : List SendReply)
  | raised (error_cls : ErrorCls)
deriving Repr

/-- Lines 92-135 of `_send_upstream`: classify the failures of one send
attempt and rebuild the pending-request map for the next cycle.

`reqs` is the pending map as an ordered association list (its key order
stands for `reqs.keys()`); `failedPayloadsCls` is the classification of the
`FailedPayloadsError` class itself (line 112 passes that class to
`_handle_error`; its set membership lives in `kafka.common`).

The fold state is `(reqs_to_retry, do_backoff, do_refresh)`.  Each
`_handle_error` call returns the extended retry list together with the
nested function's local flags, and — exactly as in the Python source, where
the rebinding never reaches the enclosing scope — the caller keeps its own
flags and discards the returned ones.

Returns the new pending map together with whether the cycle slept
(`do_backoff and retry_options.backoff_ms`) and whether it reloaded
metadata (`do_refresh`). -/
def process_send_result (retry_options : RetryOptions) (failedPayloadsCls : ErrorCls)
    (reqs : List (ProduceRequest × Nat)) (outcome : SendAttemptOutcome) :
    List (ProduceRequest × Nat) × Bool × Bool :=
  let init : List ProduceRequest × Bool × Bool := ([], false, false)
  let folded :=
    match outcome with
    | .raised error_cls =>
        let r := handle_error retry_options error_cls (reqs.map Prod.fst) init.1
        (r.1, init.2.1, init.2.2)
    | .replies rs =>
        (rs.zip (reqs.map Prod.fst)).foldl
          (fun acc (pr : SendReply × ProduceRequest) =>
            match pr.1 with
            | .ok => acc
            | .failedPayloads ps =>
                let r := handle_error retry_options failedPayloadsCls ps acc.1
                (r.1, acc.2.1, acc.2.2)
            | .brokerError error_cls =>
                let r := handle_error retry_options error_cls [pr.2] acc.1
                (r.1, acc.2.1, acc.2.2))
          init
  let reqs_to_retry := folded.1
  let do_backoff := folded.2.1
  let do_refresh := folded.2.2
  if reqs_to_retry.isEmpty then
    ([], false, false)
  else
    let didSleep := do_backoff && decide (0 < retry_options.backoff_ms)
    let didRefresh := do_refresh
    let reqs' :=
      (reqs.filter fun (kc : ProduceRequest × Nat) =>
          reqs_to_retry.contains kc.1 && decide (kc.2 < retry_options.limit)).map
        fun (kc : ProduceRequest × Nat) => (kc.1, kc.2 + 1)
    (reqs', didSleep, didRefresh)

/-! ## Producer._send_messages -/

/-- The result of `Producer._send_messages`: either the response list, or
one of the errors the method can raise. -/
inductive SendMessagesError where
  | typeErr (message : String)
  | asyncQueueFull (remainder : List PyVal) (qsize : Nat)
  | clientErr (e : PyVal)
deriving DecidableEq, Repr

/-- What one `_send_messages` call did: its result (or raised error), the
shared queue afterwards, and the list of `send_produce_request` calls made
on the client, each recorded as `(requests, acks, timeout)`. -/
structure SendMessagesOutcome where
  result : Except SendMessagesError (List PyVal)
  queue : PQueue
  clientCalls : List (List ProduceRequest × Int × Int)
deriving Repr

/-- The slice of `Producer` state read by `_send_messages`: the send mode,
ack configuration, codec, the `stopped` flag, the shared queue, and the
enqueue timeout. -/
structure ProducerState where
  async : Bool
  req_acks : Int
  ack_timeout : Int
  codec : Nat
  stopped : Bool
  queue : PQueue
  async_queue_put_timeout : Nat
deriving Repr

/-- `queue.put(item, True, timeout)` as seen by a single thread: with no
concurrent consumer a full queue stays full for the whole wait, so the call
times out and raises `Full` exactly when `put_nowait` would; otherwise it
appends immediately. -/
def put_block (q : PQueue) (e : QueueEntry) (_timeout : Nat) : Option PQueue :=
  put_nowait q e

/-- The `put` performed by the enqueue loop: `put_nowait` when
`async_queue_put_timeout == 0`, a blocking timed `put` otherwise
(base.py 271-274). -/
def queue_put (q : PQueue) (e : QueueEntry) (put_timeout : Nat) : Option PQueue :=
  if put_timeout == 0 then put_nowait q e else put_block q e put_timeout

/-- The asynchronous enqueue loop of `_send_messages` (base.py 267-279):
put one `(TopicAndPartition, m, key)` item per payload; on the first `Full`
raise `AsyncProducerQueueFull(msg[idx:], ... qsize ...)`.  Returns the
queue after the successful puts and, when the loop raised, the carried
remainder `msg[idx:]` together with the `qsize()` reported in the
message. -/
def enqueue_payloads (tp : TopicAndPartition) (key : Option PyVal) (put_timeout : Nat) :
    PQueue → List PyVal → PQueue × Option (List PyVal × Nat)
  | q, [] => (q, none)
  | q, m :: rest =>
    match queue_put q (.msg tp m key) put_timeout with
    | none => (q, some (m :: rest, q.items.length))
    | some q' => enqueue_payloads tp key put_timeout q' rest

/-- The key validation test of `_send_messages` (base.py 264):
`key is not None and not isinstance(key, six.binary_type)`. -/
def key_is_not_bytes : Option PyVal → Bool
  | some k => !(isBinaryType k)
  | none => false

/-- `Producer._send_messages(topic, partition, *msg, key=key)`
(base.py 248-290).  `client` abstracts `self.client.send_produce_request`
restricted to one call shape: it receives the request list, the acks level
and the timeout, and either returns the response list or raises.  The
`isinstance(msg, (list, tuple))` guard always passes (`*msg` packing), so it
is not modelled.  The validation order, the async enqueue loop and the
synchronous single-request send follow the source line by line. -/
def send_messages (client : List ProduceRequest → Int → Int → Except PyVal (List PyVal))
    (p : ProducerState) (topic : PyVal) (partition : Int)
    (msg : List PyVal) (key : Option PyVal) : SendMessagesOutcome :=
  if msg.any (fun m => !(isBinaryType m)) then
    { result := .error (.typeErr "all produce message payloads must be type bytes")
      queue := p.queue, clientCalls := [] }
  else if !(isBinaryType topic) then
    { result := .error (.typeErr "the topic must be type bytes")
      queue := p.queue, clientCalls := [] }
  else if key_is_not_bytes key then
    { result := .error (.typeErr "the key must be type bytes")
      queue := p.queue, clientCalls := [] }
  else if p.async then
    match enqueue_payloads ⟨topic, partition⟩ key p.async_queue_put_timeout p.queue msg with
    | (q', some rem) =>
        { result := .error (.asyncQueueFull rem.1 rem.2), queue := q', clientCalls := [] }
    | (q', none) =>
        { result := .ok [], queue := q', clientCalls := [] }
  else
    let messages := msg.map (fun m => (m, key))
    let req : ProduceRequest :=
      { topic := topic, partition := partition, messages := messages, codec := p.codec }
    match client [req] p.req_acks p.ack_timeout with
    | .ok resp =>
        { result := .ok resp, queue := p.queue
          clientCalls := [([req], p.req_acks, p.ack_timeout)] }
    | .error e =>
        { result := .error (.clientErr e), queue := p.queue
          clientCalls := [([req], p.req_acks, p.ack_timeout)] }

/-! ## The dispatcher's gather phase -/

/-- The future behaviour of the shared queue as seen by the dispatcher: the
entries that will arrive, each with its arrival time, in arrival order.
`queue.get(timeout=t)` called at time `now` returns the head entry if it
arrives by `now + t` (at time `max now head.time`), and raises `Empty` at
`now + t` otherwise. -/
structure Arrival where
  time : Int
  entry : QueueEntry
deriving DecidableEq, Repr

/-- What one gather phase produced: the `(TopicAndPartition, msg, key)`
triples pulled into the batch (in arrival order), whether the stop sentinel
was observed (`stop_event.set()`), the wall-clock time at which the loop
ended, and the arrivals still queued. -/
structure GatherResult where
  pulled : List (TopicAndPartition × PyVal × Option PyVal)
  stopSet : Bool
  endTime : Int
  remaining : List Arrival
deriving DecidableEq, Repr

/-- The inner gather loop of `_send_upstream` (base.py 65-79):
`while count > 0 and timeout >= 0`, pull the next item with the remaining
timeout; break on `Empty`; on the stop sentinel set the stop event and
break; otherwise decrement `count`, recompute `timeout = send_at - now`,
and append the item to the batch. -/
def gather_loop : List Arrival → Int → Int → Int → Int →
    List (TopicAndPartition × PyVal × Option PyVal) → GatherResult
  | arrivals, count, timeout, send_at, now, acc =>
    if 0 < count ∧ 0 ≤ timeout then
      match arrivals with
      | [] => ⟨acc, false, now + timeout, []⟩
      | a :: rest =>
        if a.time ≤ now + timeout then
          match a.entry with
          | .stopSentinel => ⟨acc, true, max now a.time, rest⟩
          | .msg tp m k =>
              let now' := max now a.time
              gather_loop rest (count - 1) (send_at - now') send_at now' (acc ++ [(tp, m, k)])
        else ⟨acc, false, now + timeout, arrivals⟩
    else ⟨acc, false, now, arrivals⟩

/-- Lines 55-79 of `_send_upstream`, one cycle's gather phase:
`timeout = batch_time`, `count = batch_size - len(reqs)`,
`send_at = time.time() + timeout`, then the gather loop. -/
def gather_cycle (arrivals : List Arrival) (batch_time batch_size : Int)
    (pendingCount : Nat) (start : Int) : GatherResult :=
  gather_loop arrivals (batch_size - pendingCount) batch_time (start + batch_time) start []

/-! ## KeyedProducer partition routing -/

/-- The client interface consumed by `KeyedProducer._next_partition`
(keyed.py 62-70): `has_metadata_for_topic` and
`get_partition_ids_for_topic`.  `load_metadata_for_topics(topic)` mutates
the client; a `KafkaClientView` is the client as observed during one call,
already reflecting that load when it happens, and the model records
separately whether the load was triggered. -/
structure KafkaClientView where
  has_metadata_for_topic : PyVal → Bool
  get_partition_ids_for_topic : PyVal → List Int

/-- The `KeyedProducer` state `_next_partition` touches: the
`self.partitioners` dict, as an ordered association list from topic to the
partitioner built for it.  The partitioner class is pluggable and external
(`kafka.partitioner`); an instance is represented by the ordered
partition-id list it was constructed from. -/
structure KeyedState where
  partitioners : List (PyVal × List Int)
deriving Repr

/-- What one `_next_partition` call did: the chosen partition, the state
afterwards, and whether `load_metadata_for_topics` was called. -/
structure NextPartitionResult where
  partition : Int
  state : KeyedState
  loadedMetadata : Bool
deriving Repr

/-- `KeyedProducer._next_partition(topic, key)` (keyed.py 62-70).  `pfun`
abstracts the pluggable partitioner's deterministic
`partition(key)` method as a pure function of the stored partition-id list
and the key.  If the topic has no cached partitioner: load metadata when
the client has none for the topic, then build and cache a partitioner from
the client's current partition-id list; in every case resolve the partition
through the cached partitioner. -/
def next_partition (pfun : List Int → PyVal → Int) (client : KafkaClientView)
    (st : KeyedState) (topic : PyVal) (key : PyVal) : NextPartitionResult :=
  match st.partitioners.lookup topic with
  | none =>
      let loaded := !(client.has_metadata_for_topic topic)
      let p := client.get_partition_ids_for_topic topic
      { partition := pfun p key
        state := ⟨st.partitioners ++ [(topic, p)]⟩
        loadedMetadata := loaded }
  | some p =>
      { partition := pfun p key, state := st, loadedMetadata := false }

/-! ## Sample values for concrete evaluation -/

/-- A sample pending request, used to evaluate the dispatcher model at
concrete inputs. -/
def sampleReq : ProduceRequest :=
  { topic := .bytes [116], partition := 0
    messages := [(.bytes [104, 105], none)], codec := 0 }

/-- An error class that is retryable, backoff-required and refresh-required
(for example `LeaderNotAvailableError`, which `kafka.common` puts in all
three sets). -/
def fullRetryCls : ErrorCls :=
  { isRequestTimedOut := false, inRetryTypes := true
    inBackoffTypes := true, inRefreshTypes := true }

/-! # Claims -/

/-- C1: once at least one failure of a cycle is classified as
backoff-required the dispatcher is supposed to sleep for `backoff_ms`, and
once at least one is classified as refresh-required it is supposed to
reload metadata.  The code never does either: `_handle_error` rebinds
`do_backoff`/`do_refresh` as locals of the nested function, so the cycle's
flags stay `False`.  Concretely: retry options with `backoff_ms = 100 > 0`,
one pending request, a reply whose error class is in both
`RETRY_BACKOFF_ERROR_TYPES` and `RETRY_REFRESH_ERROR_TYPES` — the request
is kept for retry, yet the cycle neither sleeps nor refreshes. -/
theorem C1_backoff_refresh_inert :
    process_send_result ⟨3, 100, true⟩ fullRetryCls [(sampleReq, 0)]
        (.replies [.brokerError fullRetryCls]) =
      ([(sampleReq, 1)], false, false) := by
  decide

/-- C6: the `atexit` cleanup hook is supposed to invoke `stop()` whenever
the producer has not already been stopped, as `__del__` does; instead its
guard is inverted (`if obj.stopped: obj.stop()`), so a producer with
`stopped = False` gets no stop at process exit while finalization would
stop it. -/
theorem C6_cleanup_hook_inverted :
    cleanup_invokes_stop false = false ∧ del_invokes_stop false = true := by
  decide

/-- C7 counterexample: `stop()` is not a no-op on an asynchronous producer
that is already stopped — the second call enqueues another stop sentinel
onto the shared queue, changing observable state. -/
theorem C7_second_stop_changes_state :
    stoppedAsyncProducer.stopped = true ∧
    stop stoppedAsyncProducer false ≠ stoppedAsyncProducer ∧
    (stop stoppedAsyncProducer false).queue.items =
      stoppedAsyncProducer.queue.items ++ [.stopSentinel] := by
  decide

/-- C7 amended: on a producer whose first `stop()` completed (`stopped`
true, cleanup handler deleted), a second `stop()` keeps `stopped` true
(Stopped is terminal) and the cleanup handler absent, and on a synchronous
producer it is a complete no-op; on an asynchronous producer, however, it
enqueues one more stop sentinel onto the shared queue and re-checks the
thread (setting the stop event if the thread were still alive). -/
theorem C7_second_stop_amended (st : StopProducerState) (t : Bool)
    (hstopped : st.stopped = true) (hc : st.hasCleanupFunc = false) :
    (stop st t).stopped = true ∧
    (stop st t).hasCleanupFunc = false ∧
    (st.async = false → stop st t = st) ∧
    (st.async = true →
      (stop st t).queue.maxsize = st.queue.maxsize ∧
      (stop st t).queue.items = st.queue.items ++ [.stopSentinel] ∧
      (stop st t).threadStopEventSet = (st.threadStopEventSet || t)) := by
  obtain ⟨a, q, cf, te, s⟩ := st
  cases a <;> simp_all [stop]

/-- C7 amended, witnessed at `stoppedAsyncProducer` with a dead thread. -/
theorem C7_second_stop_amended_witness :
    stoppedAsyncProducer.stopped = true ∧
    stoppedAsyncProducer.hasCleanupFunc = false ∧
    ((stop stoppedAsyncProducer false).stopped = true ∧
     (stop stoppedAsyncProducer false).hasCleanupFunc = false ∧
     (stoppedAsyncProducer.async = false →
        stop stoppedAsyncProducer false = stoppedAsyncProducer) ∧
     (stoppedAsyncProducer.async = true →
        (stop stoppedAsyncProducer false).queue.maxsize = stoppedAsyncProducer.queue.maxsize ∧
        (stop stoppedAsyncProducer false).queue.items =
          stoppedAsyncProducer.queue.items ++ [.stopSentinel] ∧
        (stop stoppedAsyncProducer false).threadStopEventSet =
          (stoppedAsyncProducer.threadStopEventSet || false))) :=
  ⟨rfl, rfl, C7_second_stop_amended stoppedAsyncProducer false rfl rfl⟩

/-- C2: every pending request kept for the next cycle stems from an entry
of the previous pending map whose pre-increment attempt counter was
strictly below `retry_options.limit`, its new counter is that counter plus
one, and so no counter ever exceeds the limit: a retryable request is
retried at most `limit` times and is dropped, never re-added, once the
counter would pass the limit. -/
theorem C2_retry_counter_bounded (retry_options : RetryOptions) (fp : ErrorCls)
    (reqs : List (ProduceRequest × Nat)) (outcome : SendAttemptOutcome)
    (r : ProduceRequest) (c : Nat)
    (h : (r, c) ∈ (process_send_result retry_options fp reqs outcome).1) :
    c ≤ retry_options.limit ∧
    ∃ c0, (r, c0) ∈ reqs ∧ c0 < retry_options.limit ∧ c = c0 + 1 := by
  simp only [process_send_result] at h
  split at h
  · simp at h
  · simp only [List.mem_map, List.mem_filter, Bool.and_eq_true, decide_eq_true_eq] at h
    obtain ⟨⟨r0, c0⟩, ⟨hmem, _, hlt⟩, heq⟩ := h
    obtain ⟨rfl, rfl⟩ := Prod.mk.injEq .. ▸ heq
    exact ⟨by omega, c0, hmem, hlt, rfl⟩

/-- C2, witnessed: with limit 3 the request failing with a retryable class
at counter 0 is kept with counter 1 ≤ 3, coming from the entry with
counter 0 < 3. -/
theorem C2_retry_counter_bounded_witness :
    ((sampleReq, 1) ∈ (process_send_result ⟨3, 100, true⟩ fullRetryCls [(sampleReq, 0)]
        (.replies [.brokerError fullRetryCls])).1) ∧
    (1 ≤ (3 : Nat) ∧ ∃ c0, (sampleReq, c0) ∈ [(sampleReq, 0)] ∧ c0 < 3 ∧ 1 = c0 + 1) :=
  ⟨by decide, C2_retry_counter_bounded ⟨3, 100, true⟩ fullRetryCls [(sampleReq, 0)]
      (.replies [.brokerError fullRetryCls]) sampleReq 1 (by decide)⟩

/-- Both branches of the `async_queue_put_timeout` test perform the same
put in a single-threaded view of the queue. -/
theorem queue_put_eq_put_nowait (q : PQueue) (e : QueueEntry) (t : Nat) :
    queue_put q e t = put_nowait q e := by
  unfold queue_put put_block
  split <;> rfl

/-- C3: enqueuing `msg` when only `K = maxsize - qsize < |msg|` slots
remain on a bounded queue appends exactly the first `K` payloads as items
and raises the queue-full error exactly once, at the first payload that
does not fit, carrying the unsent suffix `msg[K:]` (and the queue size,
then `maxsize`). -/
theorem C3_queue_full_remainder (tp : TopicAndPartition) (key : Option PyVal)
    (put_timeout : Nat) (q : PQueue) (msg : List PyVal)
    (hb : 0 < q.maxsize) (hlen : q.items.length ≤ q.maxsize)
    (hover : q.maxsize - q.items.length < msg.length) :
    enqueue_payloads tp key put_timeout q msg =
      ({ maxsize := q.maxsize
         items := q.items ++
           (msg.take (q.maxsize - q.items.length)).map (fun m => .msg tp m key) },
       some (msg.drop (q.maxsize - q.items.length), q.maxsize)) := by
  induction msg generalizing q with
  | nil => simp at hover
  | cons m rest ih =>
    rw [enqueue_payloads, queue_put_eq_put_nowait]
    by_cases hfull : q.maxsize ≤ q.items.length
    · have hK : q.maxsize - q.items.length = 0 := by omega
      have hq : q.items.length = q.maxsize := by omega
      simp [put_nowait, hb, hfull, hK, hq]
    · have hK : q.maxsize - q.items.length = (q.maxsize - (q.items.length + 1)) + 1 := by
        omega
      have hput : put_nowait q (.msg tp m key) =
          some { maxsize := q.maxsize, items := q.items ++ [.msg tp m key] } := by
        unfold put_nowait
        rw [if_neg (by omega)]
      rw [hput]
      have ih' := ih { maxsize := q.maxsize, items := q.items ++ [.msg tp m key] }
        hb (by simp; omega) (by simp at hover ⊢; omega)
      show enqueue_payloads tp key put_timeout
          { maxsize := q.maxsize, items := q.items ++ [QueueEntry.msg tp m key] } rest = _
      rw [ih']
      simp only [List.length_append, List.length_singleton]
      rw [hK]
      simp [List.take_succ_cons, List.drop_succ_cons, List.append_assoc]

/-- C3, witnessed: two free slots, three payloads — the first two are
enqueued, the error carries the third. -/
theorem C3_queue_full_remainder_witness :
    0 < (2 : Nat) ∧
    enqueue_payloads ⟨.bytes [116], 0⟩ none 0 ⟨2, []⟩
        [.bytes [1], .bytes [2], .bytes [3]] =
      (⟨2, [.msg ⟨.bytes [116], 0⟩ (.bytes [1]) none,
            .msg ⟨.bytes [116], 0⟩ (.bytes [2]) none]⟩,
       some ([.bytes [3]], 2)) :=
  ⟨by decide, C3_queue_full_remainder ⟨.bytes [116], 0⟩ none 0 ⟨2, []⟩
      [.bytes [1], .bytes [2], .bytes [3]] (by decide) (by decide) (by decide)⟩

/-- C4: whenever the topic, some payload, or the supplied key is not a
byte string, `_send_messages` raises a type error and performs no side
effect: the shared queue is unchanged and no `send_produce_request` call
is made. -/
theorem C4_validation_before_side_effects
    (client : List ProduceRequest → Int → Int → Except PyVal (List PyVal))
    (p : ProducerState) (topic : PyVal) (partition : Int)
    (msg : List PyVal) (key : Option PyVal)
    (h : isBinaryType topic = false ∨ (∃ m ∈ msg, isBinaryType m = false) ∨
         (∃ k, key = some k ∧ isBinaryType k = false)) :
    (∃ s, (send_messages client p topic partition msg key).result = .error (.typeErr s)) ∧
    (send_messages client p topic partition msg key).queue = p.queue ∧
    (send_messages client p topic partition msg key).clientCalls = [] := by
  by_cases hm : msg.any (fun m => !(isBinaryType m)) = true
  · refine ⟨⟨"all produce message payloads must be type bytes", ?_⟩, ?_, ?_⟩ <;>
      simp [send_messages, hm]
  · have hm0 : msg.any (fun m => !(isBinaryType m)) = false := by
      revert hm; cases msg.any (fun m => !(isBinaryType m)) <;> simp
    have hm' : ∀ m ∈ msg, isBinaryType m = true := by
      intro m hmem
      by_contra hcon
      have hneg : (!(isBinaryType m)) = true := by
        revert hcon; cases isBinaryType m <;> simp
      exact hm (List.any_eq_true.mpr ⟨m, hmem, hneg⟩)
    cases ht : isBinaryType topic with
    | false =>
        refine ⟨⟨"the topic must be type bytes", ?_⟩, ?_, ?_⟩ <;>
          simp [send_messages, hm0, ht]
    | true =>
        obtain h1 | h2 | h3 := h
        · rw [ht] at h1; exact Bool.noConfusion h1
        · obtain ⟨m, hmem, hfalse⟩ := h2
          rw [hm' m hmem] at hfalse; exact Bool.noConfusion hfalse
        · obtain ⟨k, hk, hkfalse⟩ := h3
          subst hk
          refine ⟨⟨"the key must be type bytes", ?_⟩, ?_, ?_⟩ <;>
            simp [send_messages, key_is_not_bytes, hm0, ht, hkfalse]

/-- C4, witnessed: a text-string topic is rejected with a type error, the
queue is untouched and the client is never called. -/
theorem C4_validation_before_side_effects_witness :
    (isBinaryType (.str "t") = false ∨
       (∃ m ∈ ([.bytes [104]] : List PyVal), isBinaryType m = false) ∨
       (∃ k, (none : Option PyVal) = some k ∧ isBinaryType k = false)) ∧
    ((∃ s, (send_messages (fun _ _ _ => .ok []) ⟨false, 1, 1000, 0, false, ⟨0, []⟩, 0⟩
              (.str "t") 0 [.bytes [104]] none).result = .error (.typeErr s)) ∧
     (send_messages (fun _ _ _ => .ok []) ⟨false, 1, 1000, 0, false, ⟨0, []⟩, 0⟩
        (.str "t") 0 [.bytes [104]] none).queue = (⟨0, []⟩ : PQueue) ∧
     (send_messages (fun _ _ _ => .ok []) ⟨false, 1, 1000, 0, false, ⟨0, []⟩, 0⟩
        (.str "t") 0 [.bytes [104]] none).clientCalls = []) :=
  ⟨Or.inl rfl,
   C4_validation_before_side_effects (fun _ _ _ => .ok [])
     ⟨false, 1, 1000, 0, false, ⟨0, []⟩, 0⟩ (.str "t") 0 [.bytes [104]] none (Or.inl rfl)⟩

/-- When every payload is a byte string, the payload `isinstance` scan
finds nothing. -/
theorem any_not_binary_eq_false {msg : List PyVal}
    (hmsg : ∀ m ∈ msg, isBinaryType m = true) :
    msg.any (fun m => !(isBinaryType m)) = false := by
  cases hA : msg.any (fun m => !(isBinaryType m)) with
  | false => rfl
  | true =>
      obtain ⟨m, hmem, hneg⟩ := List.any_eq_true.mp hA
      rw [hmsg m hmem] at hneg
      exact Bool.noConfusion hneg

/-- When the key, if supplied, is a byte string, the key check fails. -/
theorem key_is_not_bytes_eq_false : ∀ {key : Option PyVal},
    (∀ k, key = some k → isBinaryType k = true) → key_is_not_bytes key = false
  | none, _ => rfl
  | some k, hk => by
      simp only [key_is_not_bytes]
      rw [hk k rfl]
      rfl

/-- Enqueuing onto an unbounded queue (`maxsize = 0`) never raises: every
payload is appended as one item. -/
theorem enqueue_payloads_unbounded (tp : TopicAndPartition) (key : Option PyVal)
    (pt : Nat) (q : PQueue) (msg : List PyVal) (h : q.maxsize = 0) :
    enqueue_payloads tp key pt q msg =
      ({ maxsize := q.maxsize, items := q.items ++ msg.map (fun m => .msg tp m key) },
       none) := by
  induction msg generalizing q with
  | nil => simp [enqueue_payloads]
  | cons m rest ih =>
      rw [enqueue_payloads, queue_put_eq_put_nowait]
      have hput : put_nowait q (.msg tp m key) =
          some ⟨q.maxsize, q.items ++ [.msg tp m key]⟩ := by
        unfold put_nowait
        rw [if_neg (by omega)]
      rw [hput]
      have ih' := ih ⟨q.maxsize, q.items ++ [.msg tp m key]⟩ (by simpa using h)
      show enqueue_payloads tp key pt ⟨q.maxsize, q.items ++ [.msg tp m key]⟩ rest = _
      rw [ih']
      simp

/-- C8: a synchronous `_send_messages` call with valid byte-string
arguments makes exactly one `send_produce_request` call on the client,
carrying one request that covers all payloads of the call with the
configured acks and timeout; the client's response is returned unmodified
and a client error is re-raised unchanged. -/
theorem C8_sync_single_request
    (client : List ProduceRequest → Int → Int → Except PyVal (List PyVal))
    (p : ProducerState) (topic : PyVal) (partition : Int)
    (msg : List PyVal) (key : Option PyVal)
    (hasync : p.async = false)
    (hmsg : ∀ m ∈ msg, isBinaryType m = true) (ht : isBinaryType topic = true)
    (hk : ∀ k, key = some k → isBinaryType k = true) :
    (send_messages client p topic partition msg key).clientCalls =
      [([⟨topic, partition, msg.map (fun m => (m, key)), p.codec⟩], p.req_acks, p.ack_timeout)] ∧
    (send_messages client p topic partition msg key).queue = p.queue ∧
    (send_messages client p topic partition msg key).result =
      (match client [⟨topic, partition, msg.map (fun m => (m, key)), p.codec⟩]
          p.req_acks p.ack_timeout with
       | .ok resp => .ok resp
       | .error e => .error (.clientErr e)) := by
  have hm0 := any_not_binary_eq_false hmsg
  have hkc := key_is_not_bytes_eq_false hk
  cases hcl : client [⟨topic, partition, msg.map (fun m => (m, key)), p.codec⟩]
      p.req_acks p.ack_timeout with
  | ok resp => refine ⟨?_, ?_, ?_⟩ <;> simp [send_messages, hm0, ht, hkc, hasync, hcl]
  | error e => refine ⟨?_, ?_, ?_⟩ <;> simp [send_messages, hm0, ht, hkc, hasync, hcl]

/-- C8, witnessed: a synchronous producer sending one payload makes one
client call and returns the response. -/
theorem C8_sync_single_request_witness :
    ((⟨false, 1, 1000, 0, true, ⟨0, []⟩, 0⟩ : ProducerState).async = false) ∧
    ((send_messages (fun _ _ _ => .ok [.int 0]) ⟨false, 1, 1000, 0, true, ⟨0, []⟩, 0⟩
        (.bytes [116]) 0 [.bytes [104]] none).clientCalls =
      [([⟨.bytes [116], 0, [(.bytes [104], none)], 0⟩], 1, 1000)] ∧
     (send_messages (fun _ _ _ => .ok [.int 0]) ⟨false, 1, 1000, 0, true, ⟨0, []⟩, 0⟩
        (.bytes [116]) 0 [.bytes [104]] none).queue = (⟨0, []⟩ : PQueue) ∧
     (send_messages (fun _ _ _ => .ok [.int 0]) ⟨false, 1, 1000, 0, true, ⟨0, []⟩, 0⟩
        (.bytes [116]) 0 [.bytes [104]] none).result = .ok [.int 0]) :=
  ⟨rfl, C8_sync_single_request (fun _ _ _ => .ok [.int 0])
      ⟨false, 1, 1000, 0, true, ⟨0, []⟩, 0⟩ (.bytes [116]) 0 [.bytes [104]] none rfl
      (by intro m hm; simp at hm; rw [hm]; rfl) rfl (by intro k hkk; cases hkk)⟩

/-- C9: `_send_messages` never reads the `stopped` flag, so a call on a
producer that has been stopped behaves exactly as on an unstopped one: no
type (or any producer-stopped) error is raised for valid byte-string
arguments, a synchronous call still makes its one client call, and an
asynchronous call (unbounded queue) still enqueues one item per payload
and returns the empty response list. -/
theorem C9_send_after_stop
    (client : List ProduceRequest → Int → Int → Except PyVal (List PyVal))
    (p : ProducerState) (topic : PyVal) (partition : Int)
    (msg : List PyVal) (key : Option PyVal)
    (_hstopped : p.stopped = true)
    (hmsg : ∀ m ∈ msg, isBinaryType m = true) (ht : isBinaryType topic = true)
    (hk : ∀ k, key = some k → isBinaryType k = true) :
    send_messages client p topic partition msg key =
      send_messages client { p with stopped := false } topic partition msg key ∧
    (∀ s, (send_messages client p topic partition msg key).result ≠
      .error (.typeErr s)) ∧
    (p.async = false →
      (send_messages client p topic partition msg key).clientCalls =
        [([⟨topic, partition, msg.map (fun m => (m, key)), p.codec⟩],
          p.req_acks, p.ack_timeout)]) ∧
    (p.async = true → p.queue.maxsize = 0 →
      (send_messages client p topic partition msg key).result = .ok [] ∧
      (send_messages client p topic partition msg key).queue.items =
        p.queue.items ++ msg.map (fun m => .msg ⟨topic, partition⟩ m key)) := by
  have hm0 := any_not_binary_eq_false hmsg
  have hkc := key_is_not_bytes_eq_false hk
  refine ⟨rfl, ?_, ?_, ?_⟩
  · intro s
    cases hasync : p.async with
    | true =>
        rcases henq : enqueue_payloads ⟨topic, partition⟩ key
            p.async_queue_put_timeout p.queue msg with ⟨q', rem⟩
        cases rem <;> simp [send_messages, hm0, ht, hkc, hasync, henq]
    | false =>
        cases hcl : client [⟨topic, partition, msg.map (fun m => (m, key)), p.codec⟩]
            p.req_acks p.ack_timeout <;>
          simp [send_messages, hm0, ht, hkc, hasync, hcl]
  · intro hasync
    cases hcl : client [⟨topic, partition, msg.map (fun m => (m, key)), p.codec⟩]
        p.req_acks p.ack_timeout <;>
      simp [send_messages, hm0, ht, hkc, hasync, hcl]
  · intro hasync hmax
    have henq := enqueue_payloads_unbounded ⟨topic, partition⟩ key
      p.async_queue_put_timeout p.queue msg hmax
    refine ⟨?_, ?_⟩ <;> simp [send_messages, hm0, ht, hkc, hasync, henq]

/-- C9, witnessed: an already-stopped asynchronous producer still enqueues
the payload and returns `[]`. -/
theorem C9_send_after_stop_witness :
    ((⟨true, 1, 1000, 0, true, ⟨0, []⟩, 0⟩ : ProducerState).stopped = true) ∧
    (send_messages (fun _ _ _ => .ok []) ⟨true, 1, 1000, 0, true, ⟨0, []⟩, 0⟩
        (.bytes [116]) 0 [.bytes [104]] none =
      send_messages (fun _ _ _ => .ok [])
        { (⟨true, 1, 1000, 0, true, ⟨0, []⟩, 0⟩ : ProducerState) with stopped := false }
        (.bytes [116]) 0 [.bytes [104]] none ∧
     (∀ s, (send_messages (fun _ _ _ => .ok []) ⟨true, 1, 1000, 0, true, ⟨0, []⟩, 0⟩
        (.bytes [116]) 0 [.bytes [104]] none).result ≠ .error (.typeErr s)) ∧
     ((⟨true, 1, 1000, 0, true, ⟨0, []⟩, 0⟩ : ProducerState).async = false →
      (send_messages (fun _ _ _ => .ok []) ⟨true, 1, 1000, 0, true, ⟨0, []⟩, 0⟩
          (.bytes [116]) 0 [.bytes [104]] none).clientCalls =
        [([⟨.bytes [116], 0, [(.bytes [104], none)], 0⟩], 1, 1000)]) ∧
     ((⟨true, 1, 1000, 0, true, ⟨0, []⟩, 0⟩ : ProducerState).async = true →
      (⟨true, 1, 1000, 0, true, ⟨0, []⟩, 0⟩ : ProducerState).queue.maxsize = 0 →
      (send_messages (fun _ _ _ => .ok []) ⟨true, 1, 1000, 0, true, ⟨0, []⟩, 0⟩
          (.bytes [116]) 0 [.bytes [104]] none).result = .ok [] ∧
      (send_messages (fun _ _ _ => .ok []) ⟨true, 1, 1000, 0, true, ⟨0, []⟩, 0⟩
          (.bytes [116]) 0 [.bytes [104]] none).queue.items =
        [] ++ [PyVal.bytes [104]].map (fun m => .msg ⟨.bytes [116], 0⟩ m none))) :=
  ⟨rfl, C9_send_after_stop (fun _ _ _ => .ok []) ⟨true, 1, 1000, 0, true, ⟨0, []⟩, 0⟩
      (.bytes [116]) 0 [.bytes [104]] none rfl
      (by intro m hm; simp at hm; rw [hm]; rfl) rfl (by intro k hkk; cases hkk)⟩

/-- The gather loop pulls at most `max count 0` further items and ends no
later than `send_at`, provided it starts at or before `send_at` with a
timeout that does not reach past `send_at`. -/
theorem gather_loop_bound :
    ∀ (arrivals : List Arrival) (count timeout send_at now : Int)
      (acc : List (TopicAndPartition × PyVal × Option PyVal)),
      now ≤ send_at → now + timeout ≤ send_at →
      (gather_loop arrivals count timeout send_at now acc).pulled.length ≤
          acc.length + count.toNat ∧
      (gather_loop arrivals count timeout send_at now acc).endTime ≤ send_at := by
  intro arrivals
  induction arrivals with
  | nil =>
      intro count timeout send_at now acc hnow htimeout
      rw [gather_loop]
      split
      · refine ⟨?_, ?_⟩ <;> simp <;> omega
      · refine ⟨?_, ?_⟩ <;> simp <;> omega
  | cons a rest ih =>
      intro count timeout send_at now acc hnow htimeout
      rw [gather_loop]
      split
      · rename_i hcond
        by_cases harr : a.time ≤ now + timeout
        · rw [if_pos harr]
          cases hentry : a.entry with
          | stopSentinel =>
              refine ⟨?_, ?_⟩ <;> simp [max_le_iff] <;> omega
          | msg tp m k =>
              have hnow' : max now a.time ≤ send_at :=
                max_le_iff.mpr ⟨hnow, by omega⟩
              have ih' := ih (count - 1) (send_at - max now a.time) send_at
                (max now a.time) (acc ++ [(tp, m, k)]) hnow' (by omega)
              refine ⟨?_, ih'.2⟩
              refine le_trans ih'.1 ?_
              simp only [List.length_append, List.length_singleton]
              omega
        · rw [if_neg harr]
          refine ⟨?_, ?_⟩ <;> simp <;> omega
      · refine ⟨?_, ?_⟩ <;> simp <;> omega

/-- C5: one gather cycle pulls at most `batch_size - pendingCount` items
from the queue — so pulled items plus pending requests never exceed the
batch size — and the gather loop ends no later than `batch_time` after the
cycle started, flushing a non-empty batch below the size trigger when the
window elapses. -/
theorem C5_gather_cycle_bounded (arrivals : List Arrival)
    (batch_time batch_size : Int) (pendingCount : Nat) (start : Int)
    (ht : 0 ≤ batch_time) (hp : (pendingCount : Int) ≤ batch_size) :
    ((gather_cycle arrivals batch_time batch_size pendingCount start).pulled.length : Int)
        + pendingCount ≤ batch_size ∧
    (gather_cycle arrivals batch_time batch_size pendingCount start).endTime ≤
      start + batch_time := by
  have h := gather_loop_bound arrivals (batch_size - pendingCount) batch_time
    (start + batch_time) start [] (by omega) (by omega)
  unfold gather_cycle
  refine ⟨?_, h.2⟩
  have h1 := h.1
  simp only [List.length_nil] at h1
  omega

/-- C5, witnessed: batch size 3, one pending request, batch time 10
starting at time 0 with three arrivals — two items are pulled (2 + 1 ≤ 3)
and the loop ends at time 10. -/
theorem C5_gather_cycle_bounded_witness :
    (0 : Int) ≤ 10 ∧ ((1 : Nat) : Int) ≤ 3 ∧
    ((((gather_cycle
          [⟨1, .msg ⟨.bytes [116], 0⟩ (.bytes [1]) none⟩,
           ⟨2, .msg ⟨.bytes [116], 0⟩ (.bytes [2]) none⟩,
           ⟨99, .msg ⟨.bytes [116], 0⟩ (.bytes [3]) none⟩]
          10 3 1 0).pulled.length : Int) + (1 : Nat) ≤ 3) ∧
     (gather_cycle
          [⟨1, .msg ⟨.bytes [116], 0⟩ (.bytes [1]) none⟩,
           ⟨2, .msg ⟨.bytes [116], 0⟩ (.bytes [2]) none⟩,
           ⟨99, .msg ⟨.bytes [116], 0⟩ (.bytes [3]) none⟩]
          10 3 1 0).endTime ≤ 0 + 10) :=
  ⟨by decide, by decide,
   C5_gather_cycle_bounded
     [⟨1, .msg ⟨.bytes [116], 0⟩ (.bytes [1]) none⟩,
      ⟨2, .msg ⟨.bytes [116], 0⟩ (.bytes [2]) none⟩,
      ⟨99, .msg ⟨.bytes [116], 0⟩ (.bytes [3]) none⟩]
     10 3 1 0 (by decide) (by decide)⟩

/-- Appending a binding for a key absent from an association list makes it
findable. -/
theorem lookup_append_of_none (l : List (PyVal × List Int)) (a : PyVal) (b : List Int)
    (h : l.lookup a = none) : (l ++ [(a, b)]).lookup a = some b := by
  induction l with
  | nil => simp [List.lookup]
  | cons hd tl ih =>
      obtain ⟨k, v⟩ := hd
      simp only [List.cons_append, List.lookup] at h ⊢
      cases hbeq : (a == k) with
      | true => simp [hbeq] at h
      | false => simp only [hbeq] at h ⊢; exact ih h

/-- C10: for a topic with no cached partitioner, `_next_partition` builds
one from the client's partition-id list at that moment (loading metadata
exactly when the client has none for the topic) and caches it; every later
call for that topic — against any client state `c2` — reuses the cached
partitioner unchanged, triggers no metadata load, and routes by the
partition list captured at the first call, so later changes to the
broker's partition list never change routing. -/
theorem C10_partitioner_cached_once (pfun : List Int → PyVal → Int)
    (c1 c2 : KafkaClientView) (st : KeyedState) (topic key1 key2 : PyVal)
    (h : st.partitioners.lookup topic = none) :
    (next_partition pfun c1 st topic key1).partition =
      pfun (c1.get_partition_ids_for_topic topic) key1 ∧
    (next_partition pfun c1 st topic key1).loadedMetadata =
      !(c1.has_metadata_for_topic topic) ∧
    (next_partition pfun c1 st topic key1).state.partitioners =
      st.partitioners ++ [(topic, c1.get_partition_ids_for_topic topic)] ∧
    next_partition pfun c2 (next_partition pfun c1 st topic key1).state topic key2 =
      { partition := pfun (c1.get_partition_ids_for_topic topic) key2
        state := (next_partition pfun c1 st topic key1).state
        loadedMetadata := false } := by
  have h1 : next_partition pfun c1 st topic key1 =
      { partition := pfun (c1.get_partition_ids_for_topic topic) key1
        state := ⟨st.partitioners ++ [(topic, c1.get_partition_ids_for_topic topic)]⟩
        loadedMetadata := !(c1.has_metadata_for_topic topic) } := by
    unfold next_partition
    rw [h]
  refine ⟨by rw [h1], by rw [h1], by rw [h1], ?_⟩
  rw [h1]
  unfold next_partition
  rw [show (⟨st.partitioners ++ [(topic, c1.get_partition_ids_for_topic topic)]⟩ :
      KeyedState).partitioners.lookup topic = some (c1.get_partition_ids_for_topic topic)
    from lookup_append_of_none st.partitioners topic _ h]

/-- C10, witnessed: first call builds the partitioner from client `c1`'s
list `[0, 1, 2]` (no metadata, so a load is triggered); the second call
with a client now reporting `[7]` still routes by `[0, 1, 2]` and loads
nothing. -/
theorem C10_partitioner_cached_once_witness :
    ((⟨[]⟩ : KeyedState).partitioners.lookup (.bytes [116]) = none) ∧
    ((next_partition (fun ps _ => ps.headD 9) ⟨fun _ => false, fun _ => [0, 1, 2]⟩
        ⟨[]⟩ (.bytes [116]) (.bytes [107])).partition = 0 ∧
     (next_partition (fun ps _ => ps.headD 9) ⟨fun _ => false, fun _ => [0, 1, 2]⟩
        ⟨[]⟩ (.bytes [116]) (.bytes [107])).loadedMetadata = true ∧
     (next_partition (fun ps _ => ps.headD 9) ⟨fun _ => false, fun _ => [0, 1, 2]⟩
        ⟨[]⟩ (.bytes [116]) (.bytes [107])).state.partitioners =
       [] ++ [(.bytes [116], [0, 1, 2])] ∧
     next_partition (fun ps _ => ps.headD 9) ⟨fun _ => true, fun _ => [7]⟩
        (next_partition (fun ps _ => ps.headD 9) ⟨fun _ => false, fun _ => [0, 1, 2]⟩
          ⟨[]⟩ (.bytes [116]) (.bytes [107])).state (.bytes [116]) (.bytes [108]) =
       { partition := 0
         state := (next_partition (fun ps _ => ps.headD 9)
            ⟨fun _ => false, fun _ => [0, 1, 2]⟩ ⟨[]⟩ (.bytes [116]) (.bytes [107])).state
         loadedMetadata := false }) :=
  ⟨rfl, C10_partitioner_cached_once (fun ps _ => ps.headD 9)
    ⟨fun _ => false, fun _ => [0, 1, 2]⟩ ⟨fun _ => true, fun _ => [7]⟩
    ⟨[]⟩ (.bytes [116]) (.bytes [107]) (.bytes [108]) rfl⟩

end KafkaProducer
